import Mathlib

/-!
Shallow embedding of the financeAgentAi repository (four Python scripts:
`btc_agent.py`, `info_agent.py`, `email_agent.py`, `ghdy.py`) and proofs of the
specification claims about it.

Modelling conventions:
* Python strings are modelled as `List Char` (`Str`); `str.startswith` and the
  `in` substring test are re-implemented character by character below.
* Calls to external services (HTTP requests, the Supabase table client, the
  generative text API, SMTP) are modelled by passing their outcomes in
  explicitly as environment fields: an `Except Unit _` value models a call that
  either returns or raises, and a `Bool` / `Nat` field models a status or a
  returned row count.  A Python function that may raise is embedded as a
  function returning `Except`.
* `os.getenv` results are `Option String`; Python truthiness of such a value
  (`if not key:`) is `pyTruthy` below (absent or empty is falsy).
* ISO-8601 timestamp strings are `Str` values compared with the lexicographic
  linear order on `List Char`, standing for the store ordering of the
  timestamp column; the epoch-integer timestamps of `ghdy.py` are `Nat`.
* `time.sleep`, `print` logging, and the construction of MIME headers have no
  bearing on any claim and are not represented.
-/

namespace FinanceAgent

/-- Python text, modelled as a list of characters. -/
abbrev Str := List Char

/-- Python `s.startswith(p)`: `p` is a leading substring of `s`. -/
def startsWith : Str → Str → Bool
  | [], _ => true
  | _ :: _, [] => false
  | a :: p, b :: s => a == b && startsWith p s

/-- Python `p in s`: `p` occurs as a contiguous substring of `s`. -/
def containsSub (p : Str) : Str → Bool
  | [] => startsWith p []
  | b :: s => startsWith p (b :: s) || containsSub p s

/-- Python `s.strip()`: whitespace removed from both ends. -/
def pyStrip (s : Str) : Str :=
  ((s.dropWhile Char.isWhitespace).reverse.dropWhile Char.isWhitespace).reverse

/-- Python truthiness of an `os.getenv` result: `None` and `""` are falsy. -/
def pyTruthy : Option String → Bool
  | none => false
  | some s => !s.isEmpty

theorem startsWith_append {p s : Str} (t : Str) (h : startsWith p s = true) :
    startsWith p (s ++ t) = true := by
  induction p generalizing s with
  | nil => rfl
  | cons a p ih =>
    cases s with
    | nil => simp [startsWith] at h
    | cons b s =>
      simp only [startsWith, Bool.and_eq_true] at h
      simpa [startsWith, h.1] using ih h.2

theorem containsSub_nil (t : Str) : containsSub [] t = true := by
  cases t <;> simp [containsSub, startsWith]

theorem containsSub_append_right {p t : Str} (s : Str) (h : containsSub p t = true) :
    containsSub p (s ++ t) = true := by
  induction s with
  | nil => simpa using h
  | cons b s ih => simp [containsSub, ih]

theorem containsSub_append_left {p s : Str} (t : Str) (h : containsSub p s = true) :
    containsSub p (s ++ t) = true := by
  induction s with
  | nil =>
    cases p with
    | nil => simpa using containsSub_nil t
    | cons a p => simp [containsSub, startsWith] at h
  | cons b s ih =>
    simp only [containsSub, Bool.or_eq_true] at h
    rcases h with h | h
    · have hsw := startsWith_append (p := p) (s := b :: s) t h
      simp only [List.cons_append] at hsw
      simp [containsSub, hsw]
    · simp [containsSub, ih h]

/-! ### email_agent.py — salutation/signature post-processing inside `send_email`

```python
if not analysis.startswith("Dear Hamza") and not analysis.startswith("Hi Hamza"):
    analysis = f"Dear Hamza,\n\n{analysis}"
if not "Regards" in analysis and not "Sincerely" in analysis:
    analysis += "\n\nRegards,\nYour Finance Agent"
```
-/

def dearHamzaLit : Str := "Dear Hamza".toList

def hiHamzaLit : Str := "Hi Hamza".toList

def dearSalutationLit : Str := "Dear Hamza,\n\n".toList

def regardsLit : Str := "Regards".toList

def sincerelyLit : Str := "Sincerely".toList

def signatureLit : Str := "\n\nRegards,\nYour Finance Agent".toList

/-- First post-processing step of `send_email`: prepend a salutation unless the
text already starts with one. -/
def salutationStep (analysis : Str) : Str :=
  if startsWith dearHamzaLit analysis || startsWith hiHamzaLit analysis then analysis
  else dearSalutationLit ++ analysis

/-- Second post-processing step of `send_email`: append a fixed signature unless
the text already contains a closing phrase. -/
def signatureStep (analysis : Str) : Str :=
  if containsSub regardsLit analysis || containsSub sincerelyLit analysis then analysis
  else analysis ++ signatureLit

/-- The salutation/signature post-processing performed by `send_email` on the
analysis text before it is attached to the outgoing message. -/
def postProcessAnalysis (analysis : Str) : Str :=
  signatureStep (salutationStep analysis)

theorem salutationStep_starts (s : Str) :
    startsWith dearHamzaLit (salutationStep s) = true ∨
      startsWith hiHamzaLit (salutationStep s) = true := by
  unfold salutationStep
  split
  · rename_i h
    rcases Bool.or_eq_true _ _ ▸ h with h1 | h1
    · exact Or.inl h1
    · exact Or.inr h1
  · left
    exact startsWith_append s (by decide)

theorem signatureStep_contains (s : Str) :
    containsSub regardsLit (signatureStep s) = true ∨
      containsSub sincerelyLit (signatureStep s) = true := by
  unfold signatureStep
  split
  · rename_i h
    rcases Bool.or_eq_true _ _ ▸ h with h1 | h1
    · exact Or.inl h1
    · exact Or.inr h1
  · left
    exact containsSub_append_right s (by decide)

theorem postProcess_of_fixed {s : Str}
    (h1 : startsWith dearHamzaLit s = true ∨ startsWith hiHamzaLit s = true)
    (h2 : containsSub regardsLit s = true ∨ containsSub sincerelyLit s = true) :
    postProcessAnalysis s = s := by
  have hsal : salutationStep s = s := by
    unfold salutationStep
    rcases h1 with h | h <;> simp [h]
  unfold postProcessAnalysis
  rw [hsal]
  unfold signatureStep
  rcases h2 with h | h <;> simp [h]

theorem postProcess_starts (s : Str) :
    startsWith dearHamzaLit (postProcessAnalysis s) = true ∨
      startsWith hiHamzaLit (postProcessAnalysis s) = true := by
  unfold postProcessAnalysis signatureStep
  split
  · exact salutationStep_starts s
  · rcases salutationStep_starts s with h | h
    · exact Or.inl (startsWith_append _ h)
    · exact Or.inr (startsWith_append _ h)

theorem postProcess_contains (s : Str) :
    containsSub regardsLit (postProcessAnalysis s) = true ∨
      containsSub sincerelyLit (postProcessAnalysis s) = true :=
  signatureStep_contains (salutationStep s)

theorem postProcess_idem (s : Str) :
    postProcessAnalysis (postProcessAnalysis s) = postProcessAnalysis s :=
  postProcess_of_fixed (postProcess_starts s) (postProcess_contains s)

/-! ### btc_agent.py — the Price Collector tick

`fetch_btc_price_and_store` issues one GET to the price API; on a 200 status it
extracts `data["bitcoin"]["usd"]`, calls `store_in_supabase(btc_price)`
(discarding its return value) and returns the price; on any other status it
returns `None`; the surrounding `try` turns any exception (a raising
`requests.get`, or a missing payload key) into `None`.

`store_in_supabase` checks the two Supabase environment variables, inserts one
row, and returns `True` exactly when the insert raised nothing and returned a
non-empty `data` list; its own `try` turns any exception into `False`.
-/

/-- Outcome of the price API GET: HTTP status, and the `bitcoin.usd` number of
the JSON payload when the keys are present (`none` models a payload whose key
lookup raises `KeyError`).  The price itself is abstracted to a `Nat` since no
claim depends on its numeric value. -/
structure PriceResp where
  status : Nat
  bitcoinUsd : Option Nat

/-- External-world outcomes for one Price Collector tick. -/
structure PriceEnv where
  /-- Outcome of `requests.get` on the price API (`error` models a raising call). -/
  resp : Except Unit PriceResp
  /-- Whether both `SUPABASE_URL` and `SUPABASE_KEY` are set (and non-empty). -/
  supabaseCreds : Bool
  /-- Whether `supabase.table("btc_prices").insert(data).execute()` raises. -/
  insertRaises : Bool
  /-- Length of `response.data` returned by the insert when it does not raise. -/
  insertRows : Nat

/-- Embedding of `store_in_supabase` from `btc_agent.py`: returns the boolean
the Python function returns. -/
def store_in_supabase (env : PriceEnv) : Bool :=
  if !env.supabaseCreds then false
  else if env.insertRaises then false
  else decide (0 < env.insertRows)

/-- Embedding of `fetch_btc_price_and_store` from `btc_agent.py`.  The first
component is the Python return value (`None` on failure, the price on success);
the second records whether `store_in_supabase` was invoked during the tick. -/
def fetch_btc_price_and_store (env : PriceEnv) : Option Nat × Bool :=
  match env.resp with
  | .error _ => (none, false)
  | .ok r =>
    if r.status == 200 then
      match r.bitcoinUsd with
      | none => (none, false)
      | some p =>
        let _ := store_in_supabase env
        (some p, true)
    else (none, false)

/-! ### Startup credential checks (C5)

`BitcoinNewsAgent.__init__` (info_agent.py) raises when the Brave key or either
Supabase credential is missing, but performs no check on `HF_API_KEY`.
`FinanceEmailAgent.__init__` (email_agent.py) raises when the HF key, either
Supabase credential, or either Gmail credential is missing.  `btc_agent.py` has
no startup check at all: the Supabase credentials are only examined inside
`store_in_supabase`, which prints an error and returns `False`.
-/

/-- The process environment variables the agents read at construction time. -/
structure CredEnv where
  braveKey : Option String
  hfKey : Option String
  supabaseUrl : Option String
  supabaseKey : Option String
  gmailUser : Option String
  gmailPassword : Option String

/-- Embedding of `BitcoinNewsAgent.__init__` (info_agent.py): `error msg`
models `raise ValueError(msg)`. -/
def newsAgentInit (e : CredEnv) : Except String Unit :=
  if !pyTruthy e.braveKey then
    .error "API key for Brave not found in environment variables"
  else if !pyTruthy e.supabaseUrl || !pyTruthy e.supabaseKey then
    .error "SUPABASE_URL or SUPABASE_KEY not found in environment variables"
  else .ok ()

/-- Embedding of `FinanceEmailAgent.__init__` (email_agent.py). -/
def emailAgentInit (e : CredEnv) : Except String Unit :=
  if !pyTruthy e.hfKey then
    .error "HF_API_KEY not found in environment variables"
  else if !pyTruthy e.supabaseUrl || !pyTruthy e.supabaseKey then
    .error "SUPABASE_URL or SUPABASE_KEY not found in environment variables"
  else if !pyTruthy e.gmailUser || !pyTruthy e.gmailPassword then
    .error "GMAIL_USER or GMAIL_APP_PASSWORD not found in environment variables"
  else .ok ()

/-! ### info_agent.py — the News Collector

One Brave search result is a dict from which the code reads `title`,
`description`, `url`, `source` and `published` via `.get` with a default, so
each field is optional.
-/

/-- One search result as consumed by the News Collector. -/
structure Article where
  title : Option Str
  description : Option Str
  url : Option Str
  source : Option Str
  published : Option Str

def noDescriptionLit : Str := "No description available".toList

/-- The f-string prompt built by `summarize_article` (the indentation of the
Python triple-quoted literal is kept). -/
def summarizePrompt (title description : Str) : Str :=
  "Summarize this financial news article about Bitcoin in 2-3 sentences:\n            Title: ".toList
    ++ title
    ++ "\n            Description: ".toList
    ++ description
    ++ "\n            \n            Summary:".toList

/-- Embedding of `BitcoinNewsAgent.summarize_article`: `hfKey` is the agent
field `HF_API_KEY`; `genOutcome` maps the prompt string to the outcome of
`self.hf_client.text_generation` (`error` models a raising call). -/
def summarize_article (hfKey : Option String) (genOutcome : Str → Except Unit Str)
    (article : Article) : Str :=
  if !pyTruthy hfKey then
    article.description.getD noDescriptionLit
  else
    match genOutcome (summarizePrompt (article.title.getD []) (article.description.getD [])) with
    | .ok summary => pyStrip summary
    | .error _ => article.description.getD noDescriptionLit

/-- Outcome of the Brave search GET: HTTP status and, for a 200 status, the
parsed `data.get("web", {}).get("results", [])` list. -/
structure SearchResp where
  status : Nat
  results : List Article

/-- Embedding of `BitcoinNewsAgent.search_brave` applied to the outcome of its
`requests.get` call.  The call has no surrounding `try`, so a raising
`requests.get` (the `error` case) propagates to the caller. -/
def search_brave (outcome : Except Unit SearchResp) : Except Unit (List Article) :=
  match outcome with
  | .error e => .error e
  | .ok r =>
    if r.status == 200 then .ok r.results
    else .ok []

/-- Whether one `eco_info` insert counts as a success in
`BitcoinNewsAgent.store_in_supabase`: the call returned (did not raise) a
result whose `data` list is non-empty. -/
def insertSuccess : Except Unit Nat → Bool
  | .ok n => decide (0 < n)
  | .error _ => false

/-- Loop body of `BitcoinNewsAgent.store_in_supabase`: walk the formatted news
items, attempt one insert per item (outcome given by `outcomes` at the position of the item), count the successes.  Failed inserts are logged and skipped. -/
def newsStoreGo (outcomes : Nat → Except Unit Nat) :
    List Str → Nat → Nat → Nat
  | [], _, acc => acc
  | _ :: rest, idx, acc =>
    newsStoreGo outcomes rest (idx + 1)
      (if insertSuccess (outcomes idx) then acc + 1 else acc)

/-- Embedding of `BitcoinNewsAgent.store_in_supabase`: returns the number of
news items successfully persisted. -/
def newsStore (outcomes : Nat → Except Unit Nat) (news_items : List Str) : Nat :=
  newsStoreGo outcomes news_items 0 0

/-- External-world outcomes for one `fetch_bitcoin_news` run, indexed by query
number (and item number for the inserts).  The query string produced by
`generate_bitcoin_query` (a random choice or a generative call with a random
fallback) is abstracted as `queryOf`, since no claim depends on its content. -/
structure NewsEnv where
  numQueries : Nat
  queryOf : Nat → Str
  /-- Outcome of the `requests.get` of `search_brave` on query `i`. -/
  searchResp : Nat → Except Unit SearchResp
  hfKey : Option String
  /-- Outcome of `text_generation` inside `summarize_article`, per prompt. -/
  genOutcome : Str → Except Unit Str
  /-- Outcome of the `eco_info` insert for item `j` of query `i`
  (`error` models a raising call; `ok n` a result with `n` rows in `data`). -/
  insertOutcome : Nat → Nat → Except Unit Nat

/-- The fixed-layout text block assembled for one search result inside
`fetch_bitcoin_news`. -/
def formatNewsItem (query : Str) (summary : Str) (item : Article) : Str :=
  "Query: ".toList ++ query ++ "\n".toList
    ++ "Title: ".toList ++ item.title.getD [] ++ "\n".toList
    ++ "Summary: ".toList ++ summary ++ "\n".toList
    ++ "URL: ".toList ++ item.url.getD [] ++ "\n".toList
    ++ "Source: ".toList ++ item.source.getD [] ++ "\n".toList
    ++ "Published: ".toList ++ item.published.getD []

/-- One query iteration of `fetch_bitcoin_news`: search, summarize and format
each result, store the batch.  Returns the stored count for this query, or
propagates a search exception (which nothing in the Python loop catches). -/
def newsQueryStep (env : NewsEnv) (i : Nat) : Except Unit Nat :=
  match search_brave (env.searchResp i) with
  | .error e => .error e
  | .ok results =>
    let news_items := results.map fun item =>
      formatNewsItem (env.queryOf i) (summarize_article env.hfKey env.genOutcome item) item
    .ok (newsStore (env.insertOutcome i) news_items)

/-- The `for i in range(num_queries)` loop of `fetch_bitcoin_news`, carrying
the running `total_stored`. -/
def fetchNewsGo (env : NewsEnv) : List Nat → Nat → Except Unit Nat
  | [], total => .ok total
  | i :: rest, total =>
    match newsQueryStep env i with
    | .error e => .error e
    | .ok stored => fetchNewsGo env rest (total + stored)

/-- Embedding of `BitcoinNewsAgent.fetch_bitcoin_news`: the returned
`total_stored`, or the exception a search raised. -/
def fetch_bitcoin_news (env : NewsEnv) : Except Unit Nat :=
  fetchNewsGo env (List.range env.numQueries) 0

/-- Number of items of query `i` the run persists: the per-item insert
successes over the items actually produced for that query. -/
def persistedCount (env : NewsEnv) (i : Nat) : Nat :=
  match env.searchResp i with
  | .error _ => 0
  | .ok r =>
    let len := if r.status == 200 then r.results.length else 0
    (List.range len).countP fun j => insertSuccess (env.insertOutcome i j)

/-- Whether an `Except` value is a normal return (the call did not raise). -/
def exceptOk {ε α : Type} : Except ε α → Bool
  | .ok _ => true
  | .error _ => false

/-! ### email_agent.py — the Analysis and Notifier pipeline

A row of the `eco_info` table always carries the `timestamp` column the
queries sort on; `finance_info` is read with an `in` test, so it is optional.
A row of `btc_prices` likewise always carries `timestamp` (an ISO-8601 string,
so the `isinstance(..., str)` test of `prepare_context` is always true), while
`price` and `volume` are tested with `in` before use; `price` is kept in its
rendered decimal form since only its text enters the context. -/

structure EcoRow where
  timestamp : Str
  finance_info : Option Str
deriving DecidableEq

structure BtcRow where
  timestamp : Str
  price : Option Str
  volume : Option Str
deriving DecidableEq

/-- Descending-timestamp order on `eco_info` rows (`order("timestamp", desc=True)`). -/
def ecoDesc (a b : EcoRow) : Prop := b.timestamp ≤ a.timestamp

instance : DecidableRel ecoDesc :=
  fun a b => inferInstanceAs (Decidable (b.timestamp ≤ a.timestamp))

instance : IsTotal EcoRow ecoDesc := ⟨fun a b => le_total b.timestamp a.timestamp⟩

instance : IsTrans EcoRow ecoDesc := ⟨fun _ _ _ h1 h2 => le_trans h2 h1⟩

/-- Descending-timestamp order on `btc_prices` rows. -/
def btcDesc (a b : BtcRow) : Prop := b.timestamp ≤ a.timestamp

instance : DecidableRel btcDesc :=
  fun a b => inferInstanceAs (Decidable (b.timestamp ≤ a.timestamp))

instance : IsTotal BtcRow btcDesc := ⟨fun a b => le_total b.timestamp a.timestamp⟩

instance : IsTrans BtcRow btcDesc := ⟨fun _ _ _ h1 h2 => le_trans h2 h1⟩

/-- Embedding of `FinanceEmailAgent.get_recent_eco_info`: the store evaluates
the issued query (`gte("timestamp", threshold)`, `order("timestamp", desc)`,
no limit) over the table rows; `threshold` is the ISO string the agent
computes as `(datetime.now() - timedelta(days=days)).isoformat()` (the clock
arithmetic itself is outside the embedding).  `raises = true` models the query
raising or the response lacking a `data` attribute, which the `except` turns
into `[]`. -/
def get_recent_eco_info (raises : Bool) (rows : List EcoRow) (threshold : Str) :
    List EcoRow :=
  if raises then []
  else (rows.filter fun r => decide (threshold ≤ r.timestamp)).insertionSort ecoDesc

/-- Embedding of `FinanceEmailAgent.get_recent_btc_prices` (same query shape on
the `btc_prices` table). -/
def get_recent_btc_prices (raises : Bool) (rows : List BtcRow) (threshold : Str) :
    List BtcRow :=
  if raises then []
  else (rows.filter fun r => decide (threshold ≤ r.timestamp)).insertionSort btcDesc

/-- Embedding of `FinanceEmailAgent.prepare_context`: news text blocks first,
then `Date, Price[, Volume]` lines, each section limited to the 10 most recent
entries by slicing. -/
def prepare_context (eco_info : List EcoRow) (btc_prices : List BtcRow) : Str :=
  let c0 := "RECENT BITCOIN NEWS:\n\n".toList
  let c1 := (eco_info.take 10).foldl
    (fun ctx item =>
      match item.finance_info with
      | some fi => ctx ++ fi ++ "\n\n".toList
      | none => ctx) c0
  let c2 := c1 ++ "\nRECENT BITCOIN PRICE DATA:\n\n".toList
  (btc_prices.take 10).foldl
    (fun ctx item =>
      match item.price with
      | some p =>
        let dateStr := item.timestamp.takeWhile fun c => !(c == 'T')
        let line := "Date: ".toList ++ dateStr ++ ", Price: $".toList ++ p
        let line :=
          match item.volume with
          | some v => line ++ ", Volume: ".toList ++ v
          | none => line
        ctx ++ line ++ "\n".toList
      | none => ctx) c2

def analysisSystemPromptLit : Str :=
  ("You are a professional financial analyst specializing in cryptocurrency markets, particularly Bitcoin.\nYou write extremely concise, insightful analysis that identifies important correlations between news and price movements.\nYour analysis should be brief (maximum 5 short paragraphs), professionally written, and highly informative.").toList

/-- The user part of the prompt `generate_analysis` builds around the context. -/
def analysisUserPrompt (context : Str) : Str :=
  ("Based on the following information about Bitcoin news and recent price movements, \ncreate a VERY short, concise, professional analysis email identifying key correlations and insights.\nFocus only on the most significant patterns and actionable information.\nBe direct and to the point.\n\nCONTEXT DATA:\n").toList
    ++ context
    ++ "\n\nPlease format your response as a professional email to Hamza.".toList

def analysisFullPrompt (context : Str) : Str :=
  analysisSystemPromptLit ++ "\n\nUser: ".toList ++ analysisUserPrompt context
    ++ "\n\nAssistant:".toList

def analysisErrorNoticeLit : Str :=
  "Error generating Bitcoin market analysis. Please check the system logs.".toList

/-- Embedding of `FinanceEmailAgent.generate_analysis`: the generative call
either returns text (stripped) or raises, in which case the fixed error notice
is substituted. -/
def generate_analysis (genOutcome : Str → Except Unit Str) (context : Str) : Str :=
  match genOutcome (analysisFullPrompt context) with
  | .ok response => pyStrip response
  | .error _ => analysisErrorNoticeLit

/-- External-world outcomes for one `FinanceEmailAgent.run` invocation. -/
structure AnalysisEnv where
  ecoRaises : Bool
  ecoRows : List EcoRow
  btcRaises : Bool
  btcRows : List BtcRow
  /-- The `(datetime.now() - timedelta(days=7)).isoformat()` threshold. -/
  threshold : Str
  /-- Outcome of `hf_client.text_generation`, per prompt. -/
  genOutcome : Str → Except Unit Str
  /-- Whether the SMTP connect/login/send sequence succeeds. -/
  smtpOk : Bool

/-- Embedding of `FinanceEmailAgent.send_email`: post-process the analysis,
hand the resulting body to the SMTP transport.  Returns the boolean result and
the list of message bodies handed to the transport. -/
def send_email (env : AnalysisEnv) (analysis : Str) : Bool × List Str :=
  let body := postProcessAnalysis analysis
  (env.smtpOk, [body])

/-- The fixed placeholder analysis `run` sends in test mode when data is
insufficient. -/
def testAnalysisLit : Str :=
  ("Dear Hamza,\n\nThis is a test email from your Finance Email Agent. The system is functioning correctly but couldn\x27t find sufficient recent data in the database. Please ensure your data collection agents are running properly.\n\nRegards,\nYour Finance Agent").toList

/-- Embedding of `FinanceEmailAgent.run`: components are the boolean result,
the bodies handed to the SMTP transport, and whether `generate_analysis` was
invoked. -/
def runAgent (env : AnalysisEnv) (test_mode : Bool) : Bool × List Str × Bool :=
  let eco_info := get_recent_eco_info env.ecoRaises env.ecoRows env.threshold
  let btc_prices := get_recent_btc_prices env.btcRaises env.btcRows env.threshold
  if eco_info.isEmpty || btc_prices.isEmpty then
    if test_mode then
      let sent := send_email env testAnalysisLit
      (sent.1, sent.2, false)
    else (false, [], false)
  else
    let context := prepare_context eco_info btc_prices
    let analysis := generate_analysis env.genOutcome context
    let sent := send_email env analysis
    (sent.1, sent.2, true)

/-! ### ghdy.py — the read-back of the price logger

A `bitcoin_prices` row carries the epoch-integer `timestamp` the query sorts
on; `price_usd` is abstracted to a `Nat` since no claim touches its value. -/

structure GhdyRow where
  timestamp : Nat
  price_usd : Nat
deriving DecidableEq

/-- Descending-timestamp order on `bitcoin_prices` rows. -/
def ghdyDesc (a b : GhdyRow) : Prop := b.timestamp ≤ a.timestamp

instance : DecidableRel ghdyDesc :=
  fun a b => inferInstanceAs (Decidable (b.timestamp ≤ a.timestamp))

instance : IsTotal GhdyRow ghdyDesc := ⟨fun a b => Nat.le_total b.timestamp a.timestamp⟩

instance : IsTrans GhdyRow ghdyDesc := ⟨fun _ _ _ h1 h2 => Nat.le_trans h2 h1⟩

/-- Embedding of `fetch_recent_prices` from `ghdy.py`: the store evaluates the
issued query (`order("timestamp", desc=True)`, `limit(24)`, and no timestamp
filter of any kind) over the table rows; a raising call is turned into `None`
by the `except`. -/
def fetch_recent_prices (raises : Bool) (rows : List GhdyRow) : Option (List GhdyRow) :=
  if raises then none
  else some ((rows.insertionSort ghdyDesc).take 24)

/-! ### Helper lemmas about the News Collector loop -/

theorem newsStoreGo_eq (outcomes : Nat → Except Unit Nat) :
    ∀ (items : List Str) (idx acc : Nat),
      newsStoreGo outcomes items idx acc =
        acc + (List.range items.length).countP (fun j => insertSuccess (outcomes (idx + j))) := by
  intro items
  induction items with
  | nil => intro idx acc; simp [newsStoreGo]
  | cons a rest ih =>
    intro idx acc
    have hfun : ((fun j => insertSuccess (outcomes (idx + j))) ∘ Nat.succ)
        = (fun j => insertSuccess (outcomes (idx + 1 + j))) := by
      funext j
      simp only [Function.comp]
      congr 2
      omega
    rw [newsStoreGo, ih, List.length_cons, List.range_succ_eq_map, List.countP_cons,
      List.countP_map, hfun]
    have h0 : idx + 0 = idx := rfl
    rw [h0]
    by_cases hsi : insertSuccess (outcomes idx) = true
    · rw [if_pos hsi, if_pos hsi]
      omega
    · rw [if_neg hsi, if_neg hsi]
      omega

theorem newsStore_eq (outcomes : Nat → Except Unit Nat) (items : List Str) :
    newsStore outcomes items =
      (List.range items.length).countP (fun j => insertSuccess (outcomes j)) := by
  have hfun : (fun j => insertSuccess (outcomes (0 + j))) = fun j => insertSuccess (outcomes j) := by
    funext j
    rw [Nat.zero_add]
  rw [newsStore, newsStoreGo_eq, hfun, Nat.zero_add]

theorem newsQueryStep_ok (env : NewsEnv) (i : Nat)
    (h : exceptOk (env.searchResp i) = true) :
    newsQueryStep env i = .ok (persistedCount env i) := by
  unfold newsQueryStep persistedCount search_brave
  cases hsr : env.searchResp i with
  | error e => rw [hsr] at h; simp [exceptOk] at h
  | ok r =>
    by_cases hst : r.status == 200
    · simp only [hst, if_pos, newsStore_eq, List.length_map]
    · simp only [hst, if_neg, Bool.false_eq_true, not_false_iff, List.map_nil, newsStore_eq,
        List.length_nil, List.range_zero, List.countP_nil, if_false]

theorem fetchNewsGo_ok (env : NewsEnv) :
    ∀ (l : List Nat) (total : Nat),
      (∀ i ∈ l, exceptOk (env.searchResp i) = true) →
      fetchNewsGo env l total = .ok (total + (l.map (persistedCount env)).sum) := by
  intro l
  induction l with
  | nil => intro total _; simp [fetchNewsGo]
  | cons i rest ih =>
    intro total h
    rw [fetchNewsGo, newsQueryStep_ok env i (h i (List.mem_cons_self i rest))]
    dsimp only
    rw [ih (total + persistedCount env i) (fun j hj => h j (List.mem_cons_of_mem i hj))]
    simp only [List.map_cons, List.sum_cons, Except.ok.injEq]
    omega

/-! ## The claims -/

/-- A text that contains both marker substrings without starting with a
salutation. -/
def exC1 : Str := "Hello Dear Hamza, Regards".toList

/-- C1 (counterexample): the analysis text contains the substrings
"Dear Hamza" and "Regards", yet the post-processing step of `send_email`
changes it (it prepends a salutation because the text does not start with
"Dear Hamza" or "Hi Hamza"), so the claim as stated is false. -/
theorem claim_C1_counterexample :
    containsSub dearHamzaLit exC1 = true ∧ containsSub regardsLit exC1 = true ∧
      postProcessAnalysis exC1 ≠ exC1 := by
  decide

/-- C1 (amended): for every analysis text that starts with "Dear Hamza" and
contains the substring "Regards", the salutation/signature post-processing
step in `send_email` leaves the text unchanged. -/
theorem claim_C1_amended (s : Str) (h1 : startsWith dearHamzaLit s = true)
    (h2 : containsSub regardsLit s = true) :
    postProcessAnalysis s = s :=
  postProcess_of_fixed (Or.inl h1) (Or.inl h2)

def exC1w : Str := "Dear Hamza,\n\nMarkets look calm.\n\nRegards,\nYour Finance Agent".toList

/-- C1 (witness): the amended claim at a concrete text. -/
theorem claim_C1_witness :
    startsWith dearHamzaLit exC1w = true ∧ containsSub regardsLit exC1w = true ∧
      postProcessAnalysis exC1w = exC1w :=
  ⟨by decide, by decide, claim_C1_amended exC1w (by decide) (by decide)⟩

/-- C10: the salutation/signature post-processing of `send_email` is
idempotent on all input strings, because its output always starts with
"Dear Hamza" or "Hi Hamza" and always contains "Regards" or "Sincerely". -/
theorem claim_C10 (s : Str) :
    postProcessAnalysis (postProcessAnalysis s) = postProcessAnalysis s ∧
      (startsWith dearHamzaLit (postProcessAnalysis s) = true ∨
        startsWith hiHamzaLit (postProcessAnalysis s) = true) ∧
      (containsSub regardsLit (postProcessAnalysis s) = true ∨
        containsSub sincerelyLit (postProcessAnalysis s) = true) :=
  ⟨postProcess_idem s, postProcess_starts s, postProcess_contains s⟩

/-- C2: when the generative summarization path is unavailable (no inference
API key, or the generative call raises), `summarize_article` returns exactly
the original description field of the article record. -/
theorem claim_C2 (hfKey : Option String) (genOutcome : Str → Except Unit Str)
    (article : Article) (d : Str) (hd : article.description = some d)
    (h : pyTruthy hfKey = false ∨
      genOutcome (summarizePrompt (article.title.getD []) (article.description.getD []))
        = .error ()) :
    summarize_article hfKey genOutcome article = d := by
  rcases h with h | h
  · simp [summarize_article, h, hd]
  · simp only [hd, Option.getD_some] at h
    cases hk : pyTruthy hfKey <;> simp [summarize_article, hk, h, hd]

def exArticleC2 : Article := ⟨some "Title".toList, some "BTC dips.".toList, none, none, none⟩

/-- C2 (witness): with no inference API key the summary is the original
description of a concrete article. -/
theorem claim_C2_witness :
    summarize_article none (fun _ => .ok "ignored".toList) exArticleC2 = "BTC dips.".toList :=
  claim_C2 none (fun _ => .ok "ignored".toList) exArticleC2 ("BTC dips.".toList) rfl (Or.inl rfl)

/-- C3: if the price API returns a non-200 status, `fetch_btc_price_and_store`
returns `None` and never invokes `store_in_supabase` on that tick. -/
theorem claim_C3 (env : PriceEnv) (r : PriceResp) (h1 : env.resp = .ok r)
    (h2 : r.status ≠ 200) :
    fetch_btc_price_and_store env = (none, false) := by
  unfold fetch_btc_price_and_store
  rw [h1]
  simp [h2]

def exC3Env : PriceEnv := ⟨.ok ⟨503, none⟩, true, false, 1⟩

/-- C3 (witness): a concrete 503 response yields `None` with no store call. -/
theorem claim_C3_witness : fetch_btc_price_and_store exC3Env = (none, false) :=
  claim_C3 exC3Env ⟨503, none⟩ rfl (by decide)

/-- A tick whose fetch succeeds (status 200, price 42) but whose insert
returns zero rows — a persistence failure. -/
def exC4Env : PriceEnv := ⟨.ok ⟨200, some 42⟩, true, false, 0⟩

/-- C4 (counterexample): storing the fetched price fails
(`store_in_supabase` returns `False`), yet the top-level tick result is the
fetched price — a success indicator, not a failure — because
`fetch_btc_price_and_store` discards the boolean returned by
`store_in_supabase`.  The claim as stated is false. -/
theorem claim_C4_counterexample :
    store_in_supabase exC4Env = false ∧
      fetch_btc_price_and_store exC4Env = (some 42, true) :=
  ⟨rfl, rfl⟩

/-- C4 (amended): a persistence failure (insert raises or returns no rows) is
reported as boolean `False` by `store_in_supabase` to its immediate caller,
but `fetch_btc_price_and_store` discards that boolean: the tick result
depends only on the fetch outcome, never on the store outcome. -/
theorem claim_C4_amended :
    (∀ env : PriceEnv, env.insertRaises = true ∨ env.insertRows = 0 →
        store_in_supabase env = false) ∧
    (∀ env env' : PriceEnv, env'.resp = env.resp →
        fetch_btc_price_and_store env' = fetch_btc_price_and_store env) := by
  constructor
  · intro env h
    unfold store_in_supabase
    rcases h with h | h
    · cases hc : env.supabaseCreds <;> simp [hc, h]
    · cases hc : env.supabaseCreds <;> cases hr : env.insertRaises <;> simp [hc, hr, h]
  · intro env env' h
    unfold fetch_btc_price_and_store
    rw [h]

def exC4aEnv : PriceEnv := ⟨.ok ⟨200, some 7⟩, true, true, 5⟩

def exC4bEnv : PriceEnv := ⟨.ok ⟨200, some 7⟩, false, false, 3⟩

/-- C4 (witness): the amended claim at concrete ticks — a raising insert is
reported as `False` by the store, and two ticks with the same fetch response
but different store outcomes produce the same tick result. -/
theorem claim_C4_witness :
    store_in_supabase exC4aEnv = false ∧
      fetch_btc_price_and_store exC4aEnv = fetch_btc_price_and_store exC4bEnv :=
  ⟨claim_C4_amended.1 exC4aEnv (Or.inl rfl), claim_C4_amended.2 exC4bEnv exC4aEnv rfl⟩

/-- An environment for the News Collector with the search and database keys
set but no inference API key. -/
def exC5Env : CredEnv :=
  ⟨some "brave-key", none, some "https://db.example", some "service-key", none, none⟩

/-- C5 (counterexample): with the inference API key absent (and the search and
database credentials present), `BitcoinNewsAgent.__init__` succeeds instead of
aborting startup, so the claim as stated is false: the News Collector
tolerates a missing inference credential. -/
theorem claim_C5_counterexample :
    newsAgentInit exC5Env = .ok () ∧ pyTruthy exC5Env.hfKey = false :=
  ⟨rfl, rfl⟩

/-- C5 (amended): the Analysis pipeline checks all of its required credentials
at startup (inference key, database endpoint and key, mail account and
password); the News Collector aborts startup exactly when the search API key
or a database credential is absent, tolerating a missing inference key; the
Price Collector performs no startup check at all — missing database
credentials merely make `store_in_supabase` return `False` at store time. -/
theorem claim_C5_amended :
    (∀ e : CredEnv, newsAgentInit e = .ok () ↔
        (pyTruthy e.braveKey && (pyTruthy e.supabaseUrl && pyTruthy e.supabaseKey)) = true) ∧
    (∀ e : CredEnv, emailAgentInit e = .ok () ↔
        (pyTruthy e.hfKey && (pyTruthy e.supabaseUrl && pyTruthy e.supabaseKey) &&
          (pyTruthy e.gmailUser && pyTruthy e.gmailPassword)) = true) ∧
    (∀ env : PriceEnv, env.supabaseCreds = false → store_in_supabase env = false) := by
  refine ⟨fun e => ?_, fun e => ?_, fun env h => ?_⟩
  · unfold newsAgentInit
    cases hb : pyTruthy e.braveKey <;> cases hu : pyTruthy e.supabaseUrl <;>
      cases hk : pyTruthy e.supabaseKey <;> simp
  · unfold emailAgentInit
    cases hh : pyTruthy e.hfKey <;> cases hu : pyTruthy e.supabaseUrl <;>
      cases hk : pyTruthy e.supabaseKey <;> cases hg : pyTruthy e.gmailUser <;>
      cases hp : pyTruthy e.gmailPassword <;> simp
  · unfold store_in_supabase
    simp [h]

def exC5aEnv : CredEnv := ⟨some "b", some "h", some "u", some "k", some "g", some "p"⟩

def exC5bEnv : PriceEnv := ⟨.ok ⟨200, some 1⟩, false, false, 1⟩

/-- C5 (witness): the amended claim at concrete environments. -/
theorem claim_C5_witness :
    newsAgentInit exC5aEnv = .ok () ∧ store_in_supabase exC5bEnv = false :=
  ⟨(claim_C5_amended.1 exC5aEnv).mpr (by decide), claim_C5_amended.2.2 exC5bEnv rfl⟩

/-- A price-logger table holding one record with epoch timestamp 0 (the year
1970, outside every trailing 7-day window). -/
def exGhdyTable : List GhdyRow := [⟨0, 100⟩]

/-- C6 (counterexample): the price-logger read-back `fetch_recent_prices`
returns a record with epoch timestamp 0 — arbitrarily old — because its query
applies no time-window filter at all (the function does not even consult a
clock), so the claim that every read-back is filtered by a trailing 7-day
window is false. -/
theorem claim_C6_counterexample :
    fetch_recent_prices false exGhdyTable = some [⟨0, 100⟩] := by
  decide

/-- C6 (amended): the Analysis step read-backs are filtered by the trailing
time window, ordered by timestamp descending, and their downstream consumption
in `prepare_context` is limited to the 10 most recent records of each kind;
the price-logger read-back is ordered by timestamp descending and limited to
the 24 most recent records, but applies no time-window filter. -/
theorem claim_C6_amended :
    (∀ (raises : Bool) (rows : List EcoRow) (threshold : Str) (r : EcoRow),
        r ∈ get_recent_eco_info raises rows threshold → threshold ≤ r.timestamp) ∧
    (∀ (raises : Bool) (rows : List EcoRow) (threshold : Str),
        List.Sorted ecoDesc (get_recent_eco_info raises rows threshold)) ∧
    (∀ (raises : Bool) (rows : List BtcRow) (threshold : Str) (r : BtcRow),
        r ∈ get_recent_btc_prices raises rows threshold → threshold ≤ r.timestamp) ∧
    (∀ (raises : Bool) (rows : List BtcRow) (threshold : Str),
        List.Sorted btcDesc (get_recent_btc_prices raises rows threshold)) ∧
    (∀ (eco : List EcoRow) (btc : List BtcRow),
        prepare_context eco btc = prepare_context (eco.take 10) (btc.take 10)) ∧
    (∀ (rows out : List GhdyRow), fetch_recent_prices false rows = some out →
        List.Sorted ghdyDesc out ∧ out.length ≤ 24 ∧ ∀ r ∈ out, r ∈ rows) := by
  refine ⟨?_, ?_, ?_, ?_, ?_, ?_⟩
  · intro raises rows threshold r hr
    unfold get_recent_eco_info at hr
    split at hr
    · simp at hr
    · rw [List.mem_insertionSort] at hr
      exact of_decide_eq_true (List.mem_filter.mp hr).2
  · intro raises rows threshold
    unfold get_recent_eco_info
    split
    · exact List.sorted_nil
    · exact List.sorted_insertionSort ecoDesc _
  · intro raises rows threshold r hr
    unfold get_recent_btc_prices at hr
    split at hr
    · simp at hr
    · rw [List.mem_insertionSort] at hr
      exact of_decide_eq_true (List.mem_filter.mp hr).2
  · intro raises rows threshold
    unfold get_recent_btc_prices
    split
    · exact List.sorted_nil
    · exact List.sorted_insertionSort btcDesc _
  · intro eco btc
    simp [prepare_context, List.take_take]
  · intro rows out h
    unfold fetch_recent_prices at h
    simp only [if_neg, Option.some.injEq, Bool.false_eq_true, not_false_iff, if_false] at h
    subst h
    refine ⟨?_, List.length_take_le 24 _, ?_⟩
    · show List.Pairwise ghdyDesc _
      exact List.Pairwise.sublist (List.take_sublist 24 _)
        (List.sorted_insertionSort ghdyDesc rows)
    · intro r hr
      have := List.mem_of_mem_take hr
      rwa [List.mem_insertionSort] at this

def exEcoRow : EcoRow := ⟨"2024-01-02T00:00:00".toList, some "news".toList⟩

def exEcoTable : List EcoRow := [exEcoRow]

def exThreshold : Str := "2024-01-01T00:00:00".toList

/-- C6 (witness): the amended claim at concrete tables. -/
theorem claim_C6_witness :
    exThreshold ≤ exEcoRow.timestamp ∧
      List.Sorted ecoDesc (get_recent_eco_info false exEcoTable exThreshold) ∧
      prepare_context exEcoTable [] = prepare_context (exEcoTable.take 10) ([].take 10) ∧
      (∀ r ∈ [(⟨0, 100⟩ : GhdyRow)], r ∈ exGhdyTable) := by
  refine ⟨?_, claim_C6_amended.2.1 false exEcoTable exThreshold, ?_, ?_⟩
  · exact claim_C6_amended.1 false exEcoTable exThreshold exEcoRow (by decide)
  · exact claim_C6_amended.2.2.2.2.1 exEcoTable []
  · exact (claim_C6_amended.2.2.2.2.2 exGhdyTable [⟨0, 100⟩] (by decide)).2.2

/-- A News Collector run of one query whose search GET raises a transport
exception. -/
def exC7Env : NewsEnv :=
  ⟨1, fun _ => [], fun _ => .error (), none, fun _ => .error (), fun _ _ => .error ()⟩

/-- C7 (counterexample): a transport exception raised by the search call is
not caught anywhere in the News Collector — it propagates out of the per-query
unit of work and aborts the whole `fetch_bitcoin_news` run, so the claim that
no search failure propagates beyond a log line is false. -/
theorem claim_C7_counterexample :
    fetch_bitcoin_news exC7Env = .error () :=
  rfl

/-- C7 (amended): a non-success search status yields an empty result list with
no retry and no raised error (the failure shows only as a log line), but a
transport-level exception raised by the search GET is not caught and
propagates out of the per-query unit of work. -/
theorem claim_C7_amended (r : SearchResp) (h : r.status ≠ 200) :
    search_brave (.ok r) = .ok [] ∧
      ∀ e : Unit, search_brave (.error e) = .error e := by
  constructor
  · simp [search_brave, h]
  · intro e
    rfl

/-- C7 (witness): the amended claim at a concrete 429 response. -/
theorem claim_C7_witness :
    search_brave (.ok ⟨429, []⟩) = .ok [] ∧
      ∀ e : Unit, search_brave (.error e) = .error e :=
  claim_C7_amended ⟨429, []⟩ (by decide)

set_option maxRecDepth 8000 in
/-- C8: with zero recent news records or zero recent price records, `run`
returns `False` in normal mode without generating or sending anything, and in
test mode hands exactly the fixed placeholder text to the email transport
(unchanged by post-processing, since the placeholder already carries the
salutation and signature), returning the boolean of the transport. -/
theorem claim_C8 (env : AnalysisEnv)
    (h : (get_recent_eco_info env.ecoRaises env.ecoRows env.threshold).isEmpty = true ∨
      (get_recent_btc_prices env.btcRaises env.btcRows env.threshold).isEmpty = true) :
    runAgent env false = (false, [], false) ∧
      runAgent env true = (env.smtpOk, [testAnalysisLit], false) := by
  have hcond : ((get_recent_eco_info env.ecoRaises env.ecoRows env.threshold).isEmpty ||
      (get_recent_btc_prices env.btcRaises env.btcRows env.threshold).isEmpty) = true := by
    rcases h with h | h <;> simp [h]
  have hfix : postProcessAnalysis testAnalysisLit = testAnalysisLit :=
    postProcess_of_fixed (Or.inl (by decide)) (Or.inl (by decide))
  constructor
  · unfold runAgent
    rw [if_pos hcond]
    rfl
  · unfold runAgent
    rw [if_pos hcond]
    simp [send_email, hfix]

/-- A run whose `eco_info` query raises (and is degraded to an empty list),
over a non-empty price table. -/
def exC8Env : AnalysisEnv :=
  ⟨true, [], false, [⟨"2024-01-02T00:00:00".toList, some "97000.12".toList, none⟩],
    "2024-01-01T00:00:00".toList, fun _ => .error (), true⟩

/-- C8 (witness): the claim at a concrete environment with no recent news. -/
theorem claim_C8_witness :
    runAgent exC8Env false = (false, [], false) ∧
      runAgent exC8Env true = (true, [testAnalysisLit], false) :=
  claim_C8 exC8Env (Or.inl rfl)

/-- C9: whenever every search call of the run returns normally,
`fetch_bitcoin_news` returns exactly the total number of news records
successfully persisted across all queries — the sum over queries of the
per-item inserts that returned data — and per-item insert failures reduce the
count without aborting the run. -/
theorem claim_C9 (env : NewsEnv)
    (h : ∀ i, i < env.numQueries → exceptOk (env.searchResp i) = true) :
    fetch_bitcoin_news env =
      .ok (((List.range env.numQueries).map (persistedCount env)).sum) := by
  unfold fetch_bitcoin_news
  rw [fetchNewsGo_ok env (List.range env.numQueries) 0
    (fun i hi => h i (List.mem_range.mp hi))]
  rw [Nat.zero_add]

/-- A run of one query returning two articles, where the first insert persists
one row and the second insert raises. -/
def exC9Env : NewsEnv :=
  ⟨1, fun _ => "btc news".toList,
    fun _ => .ok ⟨200, [⟨some "A".toList, some "a".toList, none, none, none⟩,
      ⟨some "B".toList, some "b".toList, none, none, none⟩]⟩,
    none, fun _ => .error (),
    fun _ j => if j == 0 then .ok 1 else .error ()⟩

/-- C9 (witness): the concrete run stores one of its two items — the failing
insert reduces the count without aborting — and returns exactly that count. -/
theorem claim_C9_witness : fetch_bitcoin_news exC9Env = .ok 1 := by
  have h := claim_C9 exC9Env (fun i _ => rfl)
  rw [h]
  rfl

end FinanceAgent
